import Mathlib

/-!
Verification of the stream-reconciliation core of the langchain-nextjs chat
interface (`ChatInterface` component and the `/api/basic` route handler).

The TypeScript code operates on untyped JavaScript values (`unknown`), so we
embed a universe `JValue` of JSON-like runtime values.  Arrays and object
field lists are represented by the mutually inductive `JList` / `JFields`
(rather than `List JValue`) so that equality is decidable and all operations
reduce by evaluation.  An object carries an optional `classTag` naming the
class it was constructed from; this models nominal instance checks such as
`AIMessage.isInstance`.  JavaScript strict equality `===` is modelled by
structural equality (`==`); the values compared by the code under
verification (`tool_call_id`, tool-call `id`) are primitives, for which the
two notions agree.
-/

mutual
inductive JValue where
  | null
  | undefined
  | bool (b : Bool)
  | num (n : Int)
  | str (s : String)
  | arr (items : JList)
  | obj (classTag : Option String) (fields : JFields)
deriving DecidableEq

inductive JList where
  | nil
  | cons (head : JValue) (tail : JList)
deriving DecidableEq

inductive JFields where
  | fnil
  | fcons (key : String) (val : JValue) (tail : JFields)
deriving DecidableEq
end

/-- Convert an embedded JavaScript array to a Lean list. -/
def JList.toList : JList → List JValue
  | .nil => []
  | .cons x r => x :: r.toList

/-- Build an embedded JavaScript array from a Lean list. -/
def JList.ofList : List JValue → JList
  | [] => .nil
  | x :: r => .cons x (JList.ofList r)

/-- First binding of `key` in an object's field list (`undefined` if absent),
matching JavaScript property access. -/
def JFields.get : JFields → String → JValue
  | .fnil, _ => .undefined
  | .fcons k v r, key => if k == key then v else r.get key

/-- Whether an object's field list binds `key`, matching the JavaScript
`in` operator on plain objects. -/
def JFields.has : JFields → String → Bool
  | .fnil, _ => false
  | .fcons k _ r, key => k == key || r.has key

/-- Property access `v[key]` on an arbitrary value: `undefined` unless `v` is
an object that binds `key`. -/
def getField : JValue → String → JValue
  | .obj _ fs, key => fs.get key
  | _, _ => .undefined

/-- The JavaScript `key in v` check (true only for objects binding `key`). -/
def hasField : JValue → String → Bool
  | .obj _ fs, key => fs.has key
  | _, _ => false

/-- JavaScript truthiness of a value. -/
def truthy : JValue → Bool
  | .null => false
  | .undefined => false
  | .bool b => b
  | .num n => n != 0
  | .str s => s != ""
  | .arr _ => true
  | .obj _ _ => true

/-- The guard `message && typeof message === "object"` used by the three
classifiers: true exactly for arrays and objects (`typeof null` is
`"object"` but `null` is falsy, so `null` is excluded). -/
def isObjectValue : JValue → Bool
  | .arr _ => true
  | .obj _ _ => true
  | _ => false

mutual
/-- JavaScript `String(v)` coercion. -/
def jToString : JValue → String
  | .null => "null"
  | .undefined => "undefined"
  | .bool true => "true"
  | .bool false => "false"
  | .num n => toString n
  | .str s => s
  | .arr items => jArrToString items
  | .obj _ _ => "[object Object]"

/-- `Array.prototype.toString`: elements stringified and joined with commas,
with `null` and `undefined` elements rendered as the empty string. -/
def jArrToString : JList → String
  | .nil => ""
  | .cons x rest =>
      (match x with
        | .null => ""
        | .undefined => ""
        | v => jToString v) ++
      (match rest with
        | .nil => ""
        | .cons _ _ => "," ++ jArrToString rest)
end

/-- Models `AIMessage.isInstance` from `@langchain/core/messages`: a nominal
check that the value was constructed as an instance of the `AIMessage`
class, represented here by the object's class tag. -/
def aiMessageInstance : JValue → Bool
  | .obj (some tag) _ => tag == "AIMessage"
  | _ => false

/-- `isAIMessage` from `ChatInterface`: objects whose `type` field is
`"ai"`, or values the host library recognises as `AIMessage` instances. -/
def isAIMessage (message : JValue) : Bool :=
  if !(isObjectValue message) then false
  else if getField message "type" == JValue.str "ai" then true
  else aiMessageInstance message

/-- `isToolMessage` from `ChatInterface`. -/
def isToolMessage (message : JValue) : Bool :=
  if !(isObjectValue message) then false
  else getField message "type" == JValue.str "tool"

/-- `isHumanMessage` from `ChatInterface`. -/
def isHumanMessage (message : JValue) : Bool :=
  if !(isObjectValue message) then false
  else getField message "type" == JValue.str "human"

/-- `extractTextContent` from `ChatInterface`: strings pass through; arrays
concatenate per-fragment text; a lone object with a `text` field coerces
that field; anything else coerces `content || ""`. -/
def extractTextContent (content : JValue) : String :=
  match content with
  | .str s => s
  | .arr items =>
      String.join (items.toList.map (fun item =>
        match item with
        | .str s => s
        | _ =>
            if isObjectValue item && hasField item "text" then
              jToString (getField item "text")
            else ""))
  | _ =>
      if isObjectValue content && hasField content "text" then
        jToString (getField content "text")
      else if truthy content then jToString content
      else ""

/-- JavaScript `String.prototype.trim`: strip leading and trailing
whitespace.  (Defined over the character list so that it reduces by
evaluation; the ASCII whitespace relevant here is handled identically to
the host function.) -/
def jsTrim (s : String) : String :=
  String.mk (((s.data.dropWhile Char.isWhitespace).reverse.dropWhile
    Char.isWhitespace).reverse)

/-- Derived per-tool-call view built by the reconciler (`ToolCallState` from
`ToolCall.tsx` as populated in `ChatInterface`). -/
structure ToolCallState where
  toolCall : JValue
  toolMessage : Option JValue
  aiMessageId : JValue
  timestamp : Nat
deriving DecidableEq

/-- Tool-call list of an AI message: `message.tool_calls` when that field
holds an array, `[]` otherwise (the code checks `tool_calls &&
Array.isArray(tool_calls)`; arrays are always truthy). -/
def getToolCalls (m : JValue) : List JValue :=
  match getField m "tool_calls" with
  | .arr items => items.toList
  | _ => []

/-- `(messageAny.id as string) || msg-(messageIndex)`: the message's `id`
field when truthy, otherwise a synthesized positional key. -/
def messageKey (m : JValue) (i : Nat) : JValue :=
  if truthy (getField m "id") then getField m "id"
  else .str ("msg-" ++ toString i)

/-- The `toolMessages` collection pass: every tool-role message in the
sequence whose `tool_call_id` is truthy and matches the `id` of some tool
call in the given list. -/
def collectToolMessages (msgs : List JValue) (toolCalls : List JValue) :
    List JValue :=
  msgs.filter (fun msg =>
    isToolMessage msg &&
    (truthy (getField msg "tool_call_id") &&
     toolCalls.any (fun tc => getField tc "id" == getField msg "tool_call_id")))

/-- The state-building loop: one `ToolCallState` per tool call, in order,
whose `toolMessage` is the first collected tool message with matching
`tool_call_id`, and whose timestamp is `messageIndex * 1000`. -/
def buildToolCallStates (toolCalls toolMsgs : List JValue) (aiId : JValue)
    (i : Nat) : List ToolCallState :=
  toolCalls.map (fun tc =>
    { toolCall := tc
      toolMessage := toolMsgs.find? (fun tm =>
        getField tm "tool_call_id" == getField tc "id")
      aiMessageId := aiId
      timestamp := i * 1000 })

/-- `calls.sort((a, b) => a.timestamp - b.timestamp)`: a stable ascending
sort on the timestamp key. -/
def sortByTimestamp (states : List ToolCallState) : List ToolCallState :=
  states.mergeSort (fun a b => decide (a.timestamp ≤ b.timestamp))

/-- The map entry produced for the message at index `i` of the sequence:
present exactly when the message classifies as AI and carries a non-empty
tool-call list.  (The source sorts each entry after building the whole map;
sorting is per-entry, so it is applied here at construction.) -/
def toolCallEntry (msgs : List JValue) (i : Nat) (m : JValue) :
    Option (List ToolCallState) :=
  if isAIMessage m then
    let toolCalls := getToolCalls m
    if toolCalls.isEmpty then none
    else
      some (sortByTimestamp (buildToolCallStates toolCalls
        (collectToolMessages msgs toolCalls) (messageKey m i) i))
  else none

/-- `toolCallsByMessage` from `ChatInterface`: the derived map from message
position to its `ToolCallState` list.  (The source keys the `Map` by the
message object's reference; each array slot is a distinct reference, so the
position is the faithful value-level key.) -/
def toolCallsByMessage (msgs : List JValue) :
    List (Nat × List ToolCallState) :=
  msgs.enum.filterMap (fun p =>
    (toolCallEntry msgs p.1 p.2).map (fun s => (p.1, s)))

/-- `Map.get` on the derived map. -/
def lookupToolCalls (entries : List (Nat × List ToolCallState)) (i : Nat) :
    Option (List ToolCallState) :=
  (entries.find? (fun e => e.1 == i)).map (fun e => e.2)

/-- `associatedToolCalls` from the render pass: states are looked up only
for messages classifying as AI, with `[]` as the fallback
(`toolCallsByMessage.get(message) || []`). -/
def associatedToolCalls (msgs : List JValue) (i : Nat) (m : JValue) :
    List ToolCallState :=
  if isAIMessage m then (lookupToolCalls (toolCallsByMessage msgs) i).getD []
  else []

/-- The render sequence: `stream.messages.filter((m) => !isToolMessage(m))`. -/
def renderSequence (msgs : List JValue) : List JValue :=
  msgs.filter (fun m => !isToolMessage m)

/-- The `stream.error` value exposed by the transport:
`Error | string | undefined` (any other value behaves like `undefined`
for display purposes). -/
inductive StreamError where
  | fromError (message : String)
  | fromString (s : String)
  | otherValue (v : JValue)
  | absent
deriving DecidableEq

/-- `errorMessage` derivation: `stream.error instanceof Error ?
stream.error.message : typeof stream.error === "string" ? stream.error :
undefined`. -/
def errorMessageOf : StreamError → Option String
  | .fromError m => some m
  | .fromString s => some s
  | .otherValue _ => none
  | .absent => none

/-- Truthiness of the derived `errorMessage` (a `string | undefined`). -/
def errorTruthy : Option String → Bool
  | some s => s != ""
  | none => false

/-- The error-bubble guard at render position `j` (over the render
sequence): `errorMessage && isAIMessage(message) && messageIndex ===
renderSequence.length - 1`.  Positions are only evaluated for messages that
exist, so `j` out of range yields `false`. -/
def showErrorBubble (msgs : List JValue) (err : StreamError) (j : Nat) :
    Bool :=
  errorTruthy (errorMessageOf err) &&
  (match (renderSequence msgs)[j]? with
   | some m => isAIMessage m && (j == (renderSequence msgs).length - 1)
   | none => false)

/-- `handleSend` from `ChatInterface`, returning the payload passed to
`stream.submit` (`none` when the handler returns without submitting).
`messageOverride || ""` is `getD ""` (the only falsy string is `""`,
which maps to `""` either way). -/
def handleSend (messageOverride : Option String) (isLoading : Bool)
    (apiKey : String) : Option JValue :=
  let messageToSend := messageOverride.getD ""
  if jsTrim messageToSend == "" || isLoading then none
  else if jsTrim apiKey == "" then none
  else
    some (JValue.obj none (.fcons "messages"
      (.arr (.cons (JValue.obj none (.fcons "content" (.str messageToSend)
        (.fcons "type" (.str "human") .fnil))) .nil)) .fnil))

/-- An HTTP response from the route handler: a JSON error response with a
status code, or the agent's streaming response. -/
inductive HttpResponse where
  | json (status : Nat) (body : JValue)
  | stream (body : JValue)
deriving DecidableEq

/-- A thrown JavaScript value as seen by the route's `catch`: an `Error`
instance carrying a message, or any other thrown value. -/
inductive JsError where
  | errorObj (message : String)
  | otherThrown
deriving DecidableEq

/-- `error instanceof Error ? error.message : "Internal server error"`. -/
def thrownMessage : JsError → String
  | .errorObj m => m
  | .otherThrown => "Internal server error"

/-- The `{error: ...}` JSON body shape used by the route handler. -/
def errBody (s : String) : JValue :=
  JValue.obj none (.fcons "error" (.str s) .fnil)

/-- Modelled from the spec: `basicAgent` (imported by the route from
`./agent`, a file not part of the sources under verification) produces a
streaming response body from the request body. -/
def basicAgent (body : JValue) : HttpResponse :=
  .stream body

/-- `POST` from the `/api/basic` route: the request is the outcome of
`await request.json()` (a parsed body, or a thrown error caught by the
handler's `catch`). -/
def POST (req : Except JsError JValue) : HttpResponse :=
  match req with
  | .error e => .json 500 (errBody (thrownMessage e))
  | .ok body =>
      if !(truthy (getField body "apiKey")) then
        .json 400 (errBody "Missing API key")
      else basicAgent body

/-- Claim-side reading of the tool-call/result association exactly as the
claim states it: the first tool-role message in the entire sequence whose
`tool_call_id` equals the tool call's `id`. -/
def firstToolMessageClaimed (msgs : List JValue) (tc : JValue) :
    Option JValue :=
  msgs.find? (fun tm => isToolMessage tm &&
    (getField tm "tool_call_id" == getField tc "id"))

/-- Amended claim-side association: the first tool-role message in the
sequence whose `tool_call_id` is truthy and equals the tool call's `id`
(the truthiness requirement is what the code's collection pass imposes). -/
def firstMatchingToolMessage (msgs : List JValue) (tc : JValue) :
    Option JValue :=
  msgs.find? (fun tm => isToolMessage tm &&
    (truthy (getField tm "tool_call_id") &&
     (getField tm "tool_call_id" == getField tc "id")))

/-- Claim-side per-fragment text for `extractTextContent` on arrays: the
fragment itself when it is a string, else its `text` attribute coerced to
string, else the empty string. -/
def fragmentText (item : JValue) : String :=
  match item with
  | .str s => s
  | _ =>
      if hasField item "text" then jToString (getField item "text") else ""

/-- A tool call whose `id` is the empty string (a falsy value). -/
def cexToolCall : JValue := JValue.obj none (.fcons "id" (.str "") .fnil)

/-- An AI message carrying the falsy-id tool call. -/
def cexAIMsg : JValue :=
  JValue.obj none (.fcons "type" (.str "ai")
    (.fcons "tool_calls" (.arr (.cons cexToolCall .nil)) .fnil))

/-- A tool message answering the falsy-id tool call: its `tool_call_id`
equals the tool call's `id` (both are `""`), but is not truthy. -/
def cexToolMsg : JValue :=
  JValue.obj none (.fcons "type" (.str "tool")
    (.fcons "tool_call_id" (.str "") .fnil))

/-- The sequence exhibiting the falsy-id divergence. -/
def cexMsgs : List JValue := [cexAIMsg, cexToolMsg]

/-- A tool call with id `"t1"`. -/
def wToolCall : JValue := JValue.obj none (.fcons "id" (.str "t1") .fnil)

/-- An AI message carrying the `"t1"` tool call. -/
def wAIMsg : JValue :=
  JValue.obj none (.fcons "type" (.str "ai")
    (.fcons "tool_calls" (.arr (.cons wToolCall .nil)) .fnil))

/-- The tool message answering tool call `"t1"` with result `"42"`. -/
def wToolMsg : JValue :=
  JValue.obj none (.fcons "type" (.str "tool")
    (.fcons "tool_call_id" (.str "t1")
      (.fcons "content" (.str "42") .fnil)))

/-- A two-message sequence with a completed tool call. -/
def wMsgs : List JValue := [wAIMsg, wToolMsg]

/-- A human message used to extend sequences. -/
def wHumanMsg : JValue :=
  JValue.obj none (.fcons "type" (.str "human")
    (.fcons "content" (.str "ok") .fnil))

/-- The `ToolCallState` the reconciler derives for `wMsgs` at index 0. -/
def wState : ToolCallState :=
  { toolCall := wToolCall
    toolMessage := some wToolMsg
    aiMessageId := JValue.str "msg-0"
    timestamp := 0 }

theorem mem_filterMapEnum_keyGe {β : Type} (g : Nat → JValue → Option β)
    (l : List JValue) (k : Nat) :
    ∀ e ∈ (List.enumFrom k l).filterMap
      (fun p => (g p.1 p.2).map (fun s => (p.1, s))), k ≤ e.1 := by
  intro e he
  rcases List.mem_filterMap.mp he with ⟨p, hp, hf⟩
  obtain ⟨i, m⟩ := p
  rcases Option.map_eq_some'.mp hf with ⟨s, _, hs⟩
  have hk := (List.mem_enumFrom hp).1
  rw [← hs]
  exact hk

theorem find?_filterMapEnum {β : Type} (g : Nat → JValue → Option β) :
    ∀ (l : List JValue) (n i : Nat),
    ((List.enumFrom n l).filterMap
        (fun p => (g p.1 p.2).map (fun s => (p.1, s)))).find?
      (fun e => e.1 == n + i)
    = (l[i]?.bind (g (n + i))).map (fun s => (n + i, s)) := by
  intro l
  induction l with
  | nil => intro n i; simp
  | cons m rest ih =>
    intro n i
    rw [List.enumFrom_cons]
    cases hg : g n m with
    | some s =>
      have hf : (fun p : Nat × JValue => (g p.1 p.2).map (fun s => (p.1, s))) (n, m)
          = some (n, s) := by simp [hg]
      rw [@List.filterMap_cons_some (Nat × JValue) (Nat × β)
        (fun p => (g p.1 p.2).map (fun s => (p.1, s))) (n, m)
        (List.enumFrom (n + 1) rest) (n, s) hf]
      cases i with
      | zero =>
        rw [List.find?_cons_of_pos _ (by simp)]
        simp [hg]
      | succ j =>
        rw [List.find?_cons_of_neg _ (by simp only [beq_iff_eq]; omega)]
        rw [show n + (j + 1) = (n + 1) + j by omega]
        simpa using ih (n + 1) j
    | none =>
      have hf : (fun p : Nat × JValue => (g p.1 p.2).map (fun s => (p.1, s))) (n, m)
          = none := by simp [hg]
      rw [@List.filterMap_cons_none (Nat × JValue) (Nat × β)
        (fun p => (g p.1 p.2).map (fun s => (p.1, s))) (n, m)
        (List.enumFrom (n + 1) rest) hf]
      cases i with
      | zero =>
        rw [List.find?_eq_none.mpr ?keysBig]
        · simp [hg]
        case keysBig =>
          intro x hx
          have := mem_filterMapEnum_keyGe g rest (n + 1) x hx
          simp only [beq_iff_eq]
          omega
      | succ j =>
        rw [show n + (j + 1) = (n + 1) + j by omega]
        simpa using ih (n + 1) j

theorem lookup_toolCallsByMessage (msgs : List JValue) (i : Nat) :
    lookupToolCalls (toolCallsByMessage msgs) i =
      msgs[i]?.bind (fun m => toolCallEntry msgs i m) := by
  unfold lookupToolCalls toolCallsByMessage
  rw [List.enum_eq_enumFrom]
  have h := find?_filterMapEnum (fun k m => toolCallEntry msgs k m) msgs 0 i
  simp only [Nat.zero_add] at h
  rw [h]
  cases msgs[i]?.bind (fun m => toolCallEntry msgs i m) <;> simp

theorem sortByTimestamp_build (toolCalls toolMsgs : List JValue)
    (aiId : JValue) (i : Nat) :
    sortByTimestamp (buildToolCallStates toolCalls toolMsgs aiId i) =
      buildToolCallStates toolCalls toolMsgs aiId i := by
  apply List.mergeSort_of_sorted
  unfold buildToolCallStates
  rw [List.pairwise_map]
  induction toolCalls with
  | nil => exact List.Pairwise.nil
  | cons x xs ihx => exact List.Pairwise.cons (fun y hy => by simp) ihx

theorem toolCallEntry_eq_some (msgs : List JValue) (i : Nat) (m : JValue)
    (hai : isAIMessage m = true) (hne : (getToolCalls m).isEmpty = false) :
    toolCallEntry msgs i m =
      some (buildToolCallStates (getToolCalls m)
        (collectToolMessages msgs (getToolCalls m)) (messageKey m i) i) := by
  simp [toolCallEntry, hai, hne, sortByTimestamp_build]

theorem find?_collectToolMessages (msgs toolCalls : List JValue)
    (tc : JValue) (htc : tc ∈ toolCalls) :
    (collectToolMessages msgs toolCalls).find?
      (fun tm => getField tm "tool_call_id" == getField tc "id")
    = firstMatchingToolMessage msgs tc := by
  unfold collectToolMessages firstMatchingToolMessage
  rw [List.find?_filter]
  congr 1
  funext tm
  cases h1 : isToolMessage tm <;>
    cases h2 : truthy (getField tm "tool_call_id") <;>
    cases h3 : (getField tm "tool_call_id" == getField tc "id") <;>
    simp [h1, h2, h3]
  exact ⟨tc, htc, by rw [beq_iff_eq.mp h3]⟩

/-- C2: the render sequence equals the input sequence with exactly the
tool-role messages removed: no tool-role message appears in it, it is a
sublist of (hence order-preserving over) the input, and together with the
removed tool messages it is a permutation of the input. -/
theorem renderSequence_spec (msgs : List JValue) :
    (∀ m ∈ renderSequence msgs, isToolMessage m = false) ∧
    (renderSequence msgs).Sublist msgs ∧
    List.Perm (msgs.filter (fun m => isToolMessage m) ++ renderSequence msgs)
      msgs := by
  refine ⟨?_, ?_, ?_⟩
  · intro m hm
    have h := List.of_mem_filter hm
    simpa using h
  · exact List.filter_sublist msgs
  · exact List.filter_append_perm isToolMessage msgs

/-- C2 witness: on a concrete sequence, a member of the render sequence is
not a tool message. -/
theorem renderSequence_spec_w : isToolMessage wHumanMsg = false :=
  (renderSequence_spec [wToolMsg, wHumanMsg]).1 wHumanMsg (by decide)

/-- C4: `extractTextContent` returns a string unchanged, concatenates
fragment text over arrays in order (fragment itself when a string, else
its `text` attribute coerced to string, else empty), coerces the `text`
attribute of a lone object carrying one, maps `null` to the empty string,
and satisfies the spec's concrete examples. -/
theorem extractTextContent_spec :
    (∀ s, extractTextContent (.str s) = s) ∧
    (∀ items : JList, extractTextContent (.arr items) =
      String.join (items.toList.map fragmentText)) ∧
    (∀ tag fs, hasField (JValue.obj tag fs) "text" = true →
      extractTextContent (JValue.obj tag fs) =
        jToString (getField (JValue.obj tag fs) "text")) ∧
    extractTextContent .null = "" ∧
    extractTextContent (.str "hello") = "hello" ∧
    extractTextContent (.arr (.cons (JValue.obj none (.fcons "text"
      (.str "a") .fnil)) (.cons (.str "b") (.cons (JValue.obj none
      (.fcons "text" (.str "c") .fnil)) .nil)))) = "abc" ∧
    extractTextContent (JValue.obj none (.fcons "text" (.str "x") .fnil))
      = "x" := by
  refine ⟨fun s => rfl, ?_, ?_, rfl, rfl, by decide, by decide⟩
  · intro items
    unfold extractTextContent
    refine congrArg String.join (List.map_congr_left ?_)
    intro item _
    cases item <;> simp [fragmentText, hasField, isObjectValue]
  · intro tag fs h
    simp [extractTextContent, isObjectValue, h]

/-- C4 witness: the lone-object clause applied at a concrete input. -/
theorem extractTextContent_spec_w :
    extractTextContent (JValue.obj none (.fcons "text" (.str "x") .fnil)) =
      jToString (getField (JValue.obj none (.fcons "text" (.str "x") .fnil))
        "text") :=
  extractTextContent_spec.2.2.1 none (.fcons "text" (.str "x") .fnil)
    (by decide)

/-- C5: the classifiers are total by construction (they are Lean functions
over every `JValue`, so they return a value on `null`, `undefined`,
primitives and arbitrary objects and cannot throw; likewise
`extractTextContent`), and an unrecognized shape — a non-object, or an
object whose `type` field is none of `"ai"`, `"tool"`, `"human"` and which
is not an `AIMessage` instance — classifies as none of the three roles. -/
theorem classify_unrecognized (v : JValue)
    (h : isObjectValue v = false ∨
      (getField v "type" ≠ JValue.str "ai" ∧
       getField v "type" ≠ JValue.str "tool" ∧
       getField v "type" ≠ JValue.str "human" ∧
       aiMessageInstance v = false)) :
    isAIMessage v = false ∧ isToolMessage v = false ∧
      isHumanMessage v = false := by
  rcases h with h | ⟨h1, h2, h3, h4⟩
  · simp [isAIMessage, isToolMessage, isHumanMessage, h]
  · have e1 : (getField v "type" == JValue.str "ai") = false :=
      beq_eq_false_iff_ne.mpr h1
    have e2 : (getField v "type" == JValue.str "tool") = false :=
      beq_eq_false_iff_ne.mpr h2
    have e3 : (getField v "type" == JValue.str "human") = false :=
      beq_eq_false_iff_ne.mpr h3
    cases hobj : isObjectValue v <;>
      simp [isAIMessage, isToolMessage, isHumanMessage, hobj, e1, e2, e3, h4]

/-- C5 witness: an object of unrecognized shape classifies as none of the
three roles. -/
theorem classify_unrecognized_w :
    isAIMessage (JValue.obj none (.fcons "type" (.str "banana") .fnil))
        = false ∧
    isToolMessage (JValue.obj none (.fcons "type" (.str "banana") .fnil))
        = false ∧
    isHumanMessage (JValue.obj none (.fcons "type" (.str "banana") .fnil))
        = false :=
  classify_unrecognized (JValue.obj none (.fcons "type" (.str "banana")
    .fnil)) (Or.inr ⟨by decide, by decide, by decide, by decide⟩)

/-- C7: the send handler is a no-op whenever the outgoing text trims to
empty or a submission is in flight, and submits only when the trimmed text
is non-empty and no submission is in flight. -/
theorem handleSend_guard (mo : Option String) (l : Bool) (k : String) :
    ((jsTrim (mo.getD "") = "" ∨ l = true) → handleSend mo l k = none) ∧
    (handleSend mo l k ≠ none →
      (jsTrim (mo.getD "") ≠ "" ∧ l = false)) := by
  constructor
  · intro h
    rcases h with h | h
    · simp [handleSend, h]
    · simp [handleSend, h]
  · intro h
    by_cases h1 : jsTrim (mo.getD "") = ""
    · exact absurd (by simp [handleSend, h1]) h
    · cases l with
      | true => exact absurd (by simp [handleSend]) h
      | false => exact ⟨h1, rfl⟩

/-- C7 witness: whitespace-only text while not loading yields no
submission. -/
theorem handleSend_guard_w : handleSend (some "   ") false "key" = none :=
  (handleSend_guard (some "   ") false "key").1 (Or.inl (by decide))

/-- C8 counterexample: an accepted submission's payload tags the message
with a `type` field equal to `"human"`; it carries no `role` field, so the
claimed payload shape `{messages: [{content, role: "human"}]}` is not what
is submitted. -/
theorem handleSend_payload_cex :
    handleSend (some "hi") false "key" =
      some (JValue.obj none (.fcons "messages"
        (.arr (.cons (JValue.obj none (.fcons "content" (.str "hi")
          (.fcons "type" (.str "human") .fnil))) .nil)) .fnil)) ∧
    hasField (JValue.obj none (.fcons "content" (.str "hi")
      (.fcons "type" (.str "human") .fnil))) "role" = false ∧
    handleSend (some "hi") false "key" ≠
      some (JValue.obj none (.fcons "messages"
        (.arr (.cons (JValue.obj none (.fcons "content" (.str "hi")
          (.fcons "role" (.str "human") .fnil))) .nil)) .fnil)) :=
  ⟨by decide, by decide, by decide⟩

/-- C8 (amended): every accepted submission calls the submission interface
with `submit({messages: [{content: <the outgoing text>, type: "human"}]})`
— a single-element messages list whose entry carries the outgoing text as
`content` and is tagged as a human message via a `type` field equal to
`"human"`. -/
theorem handleSend_payload (mo : Option String) (l : Bool) (k : String)
    (h : handleSend mo l k ≠ none) :
    handleSend mo l k =
      some (JValue.obj none (.fcons "messages"
        (.arr (.cons (JValue.obj none (.fcons "content"
          (.str (mo.getD "")) (.fcons "type" (.str "human") .fnil)))
          .nil)) .fnil)) := by
  by_cases h1 : (jsTrim (mo.getD "") == "" || l) = true
  · exact absurd (by simp only [handleSend]; rw [if_pos h1]) h
  · by_cases h2 : (jsTrim k == "") = true
    · exact absurd (by simp only [handleSend]; rw [if_neg h1, if_pos h2]) h
    · simp only [handleSend]
      rw [if_neg h1, if_neg h2]

/-- C8 witness: the amended payload shape at a concrete accepted
submission. -/
theorem handleSend_payload_w :
    handleSend (some "hi") false "key" =
      some (JValue.obj none (.fcons "messages"
        (.arr (.cons (JValue.obj none (.fcons "content"
          (.str ((some "hi").getD "")) (.fcons "type" (.str "human")
          .fnil))) .nil)) .fnil)) :=
  handleSend_payload (some "hi") false "key" (by decide)

/-- C9 counterexample: a body whose `apiKey` is present but empty (falsy)
is answered with 400, not with the agent's streaming response, so the
claim's "absent ⇒ 400, otherwise stream" reading fails. -/
theorem POST_cex :
    POST (.ok (JValue.obj none (.fcons "apiKey" (.str "") .fnil))) =
      .json 400 (errBody "Missing API key") ∧
    hasField (JValue.obj none (.fcons "apiKey" (.str "") .fnil)) "apiKey"
      = true ∧
    POST (.ok (JValue.obj none (.fcons "apiKey" (.str "") .fnil))) ≠
      basicAgent (JValue.obj none (.fcons "apiKey" (.str "") .fnil)) :=
  ⟨by decide, by decide, by decide⟩

/-- C9 (amended): if the parsed JSON body's `apiKey` is absent or
otherwise falsy (e.g. the empty string), the response is 400 with
`{error: "Missing API key"}`; if an internal failure occurs (including a
body that fails to parse as JSON), the response is 500 with
`{error: message}`; otherwise the agent's streaming response is
returned. -/
theorem POST_spec (req : Except JsError JValue) :
    (∀ e, req = .error e →
      POST req = .json 500 (errBody (thrownMessage e))) ∧
    (∀ body, req = .ok body → truthy (getField body "apiKey") = false →
      POST req = .json 400 (errBody "Missing API key")) ∧
    (∀ body, req = .ok body → truthy (getField body "apiKey") = true →
      POST req = basicAgent body) := by
  refine ⟨?_, ?_, ?_⟩
  · intro e he
    subst he
    rfl
  · intro body hb hk
    subst hb
    simp [POST, hk]
  · intro body hb hk
    subst hb
    simp [POST, hk]

/-- C9 witness: a body with a truthy `apiKey` is answered by the agent's
streaming response. -/
theorem POST_spec_w :
    POST (.ok (JValue.obj none (.fcons "apiKey" (.str "sk") .fnil))) =
      basicAgent (JValue.obj none (.fcons "apiKey" (.str "sk") .fnil)) :=
  (POST_spec (.ok (JValue.obj none (.fcons "apiKey" (.str "sk") .fnil)))).2.2
    (JValue.obj none (.fcons "apiKey" (.str "sk") .fnil)) rfl (by decide)

/-- C1 counterexample: for a tool call whose `id` is the empty string (a
falsy value), the sequence contains a tool-role message whose
`tool_call_id` equals that id, yet the reconciler leaves the tool call
pending (`toolMessage` absent), because its collection pass requires a
truthy `tool_call_id`. -/
theorem toolCallStates_cex :
    lookupToolCalls (toolCallsByMessage cexMsgs) 0 =
      some [{ toolCall := cexToolCall, toolMessage := none,
              aiMessageId := JValue.str "msg-0", timestamp := 0 }] ∧
    firstToolMessageClaimed cexMsgs cexToolCall = some cexToolMsg := by
  constructor
  · rw [lookup_toolCallsByMessage,
      show cexMsgs[0]? = some cexAIMsg from rfl, Option.some_bind,
      toolCallEntry_eq_some cexMsgs 0 cexAIMsg (by decide) (by decide)]
    decide
  · decide

/-- C1 (amended): for every message at index `i` classifying as AI with a
non-empty tool-call list, the reconciler produces exactly one
`ToolCallState` per tool call, in the tool calls' original list order,
whose `toolMessage` is the first tool-role message in the entire sequence
whose `tool_call_id` is truthy and equals that tool call's id (absent,
i.e. pending, when no such tool message exists), and whose timestamp is
`i * 1000`. -/
theorem toolCallStates_spec (msgs : List JValue) (i : Nat) (m : JValue)
    (hm : msgs[i]? = some m) (hai : isAIMessage m = true)
    (hne : (getToolCalls m).isEmpty = false) :
    lookupToolCalls (toolCallsByMessage msgs) i =
      some ((getToolCalls m).map (fun tc =>
        { toolCall := tc
          toolMessage := firstMatchingToolMessage msgs tc
          aiMessageId := messageKey m i
          timestamp := i * 1000 })) := by
  rw [lookup_toolCallsByMessage, hm, Option.some_bind,
    toolCallEntry_eq_some msgs i m hai hne]
  unfold buildToolCallStates
  exact congrArg some (List.map_congr_left (fun tc htc => by
    rw [find?_collectToolMessages msgs (getToolCalls m) tc htc]))

/-- C1 witness: the amended association at a concrete sequence with one
completed tool call. -/
theorem toolCallStates_spec_w :
    lookupToolCalls (toolCallsByMessage wMsgs) 0 =
      some ((getToolCalls wAIMsg).map (fun tc =>
        { toolCall := tc
          toolMessage := firstMatchingToolMessage wMsgs tc
          aiMessageId := messageKey wAIMsg 0
          timestamp := 0 * 1000 })) :=
  toolCallStates_spec wMsgs 0 wAIMsg rfl (by decide) (by decide)

/-- C3: a tool-call/result match is monotone under appending messages:
if reconciling `S` matches the `j`-th tool call of the entry at index `i`
to tool message `tm`, then reconciling `S ++ T` yields, at the same
position, a state for the same tool call matched to the same tool
message. -/
theorem toolCallMatch_monotone (S T : List JValue) (i j : Nat)
    (states : List ToolCallState) (st : ToolCallState) (tm : JValue)
    (hs : lookupToolCalls (toolCallsByMessage S) i = some states)
    (hj : states[j]? = some st) (htm : st.toolMessage = some tm) :
    (lookupToolCalls (toolCallsByMessage (S ++ T)) i).bind
      (fun sts => sts[j]?.map (fun s2 => (s2.toolCall, s2.toolMessage)))
    = some (st.toolCall, some tm) := by
  rw [lookup_toolCallsByMessage] at hs
  cases hSi : S[i]? with
  | none => rw [hSi, Option.none_bind] at hs; exact absurd hs (by simp)
  | some m =>
  rw [hSi, Option.some_bind] at hs
  by_cases hai : isAIMessage m = true
  case neg =>
    have hf : isAIMessage m = false := by simpa using hai
    rw [show toolCallEntry S i m = none by simp [toolCallEntry, hf]] at hs
    exact absurd hs (by simp)
  case pos =>
  cases hemp : (getToolCalls m).isEmpty with
  | true =>
    rw [show toolCallEntry S i m = none by simp [toolCallEntry, hemp]] at hs
    exact absurd hs (by simp)
  | false =>
  rw [toolCallEntry_eq_some S i m hai hemp] at hs
  have hstates := Option.some.inj hs
  have hi : i < S.length := by
    rcases List.getElem?_eq_some.mp hSi with ⟨h, _⟩
    exact h
  rw [lookup_toolCallsByMessage, List.getElem?_append_left hi, hSi,
    Option.some_bind, toolCallEntry_eq_some (S ++ T) i m hai hemp,
    Option.some_bind]
  have hcoll : collectToolMessages (S ++ T) (getToolCalls m) =
      collectToolMessages S (getToolCalls m) ++
        collectToolMessages T (getToolCalls m) :=
    List.filter_append S T
  subst hstates
  unfold buildToolCallStates at hj ⊢
  rw [List.getElem?_map] at hj
  cases htc : (getToolCalls m)[j]? with
  | none => rw [htc] at hj; exact absurd hj (by simp)
  | some tc =>
  rw [htc, Option.map_some'] at hj
  have hst := Option.some.inj hj
  rw [List.getElem?_map, htc, Option.map_some', Option.map_some']
  rw [hcoll, List.find?_append]
  have hfound : (collectToolMessages S (getToolCalls m)).find?
      (fun tmsg => getField tmsg "tool_call_id" == getField tc "id")
      = some tm := by
    rw [show ((collectToolMessages S (getToolCalls m)).find?
        (fun tmsg => getField tmsg "tool_call_id" == getField tc "id"))
      = st.toolMessage from congrArg ToolCallState.toolMessage hst, htm]
  rw [hfound, Option.or_some]
  rw [show st.toolCall = tc from (congrArg ToolCallState.toolCall hst).symm]

/-- C3 witness: appending a human message preserves the concrete match of
tool call `"t1"` to its tool message. -/
theorem toolCallMatch_monotone_w :
    (lookupToolCalls (toolCallsByMessage (wMsgs ++ [wHumanMsg])) 0).bind
      (fun sts => sts[0]?.map (fun s2 => (s2.toolCall, s2.toolMessage)))
    = some (wState.toolCall, some wToolMsg) :=
  toolCallMatch_monotone wMsgs [wHumanMsg] 0 0 [wState] wState wToolMsg
    (by rw [lookup_toolCallsByMessage,
          show wMsgs[0]? = some wAIMsg from rfl, Option.some_bind,
          toolCallEntry_eq_some wMsgs 0 wAIMsg (by decide) (by decide)]
        decide)
    (by decide) (by decide)

/-- C6: with a present (truthy) error, the error bubble shows at render
position `j` exactly when `j` is the last position of the render sequence
and the message there — necessarily the last AI message — classifies as
AI; in particular, when the last render-sequence item is not an AI
message, no position shows a bubble. -/
theorem errorBubble_spec (msgs : List JValue) (err : StreamError) (j : Nat)
    (hp : errorTruthy (errorMessageOf err) = true) :
    showErrorBubble msgs err j =
      ((j + 1 == (renderSequence msgs).length) &&
       (renderSequence msgs).getLast?.any isAIMessage) := by
  unfold showErrorBubble
  rw [hp, Bool.true_and]
  cases hr : (renderSequence msgs)[j]? with
  | none =>
    have hlen : (renderSequence msgs).length ≤ j :=
      List.getElem?_eq_none_iff.mp hr
    have hb : (j + 1 == (renderSequence msgs).length) = false :=
      beq_eq_false_iff_ne.mpr (by omega)
    rw [hb, Bool.false_and]
  | some m =>
    have hj : j < (renderSequence msgs).length := by
      rcases List.getElem?_eq_some.mp hr with ⟨h, _⟩
      exact h
    by_cases hlast : j + 1 = (renderSequence msgs).length
    · have h1 : (j == (renderSequence msgs).length - 1) = true := by
        rw [beq_iff_eq]
        omega
      have h2 : (j + 1 == (renderSequence msgs).length) = true := by
        rw [beq_iff_eq]
        exact hlast
      have h3 : (renderSequence msgs).getLast? = some m := by
        rw [List.getLast?_eq_getElem?,
          show (renderSequence msgs).length - 1 = j by omega, hr]
      rw [h1, h2, h3]
      simp [Option.any_some]
    · have h1 : (j == (renderSequence msgs).length - 1) = false := by
        rw [beq_eq_false_iff_ne]
        omega
      have h2 : (j + 1 == (renderSequence msgs).length) = false :=
        beq_eq_false_iff_ne.mpr hlast
      rw [h1, h2]
      simp

/-- C6 witness: a present error and a render sequence ending in an AI
message at a concrete input. -/
theorem errorBubble_spec_w :
    showErrorBubble [wAIMsg] (StreamError.fromString "boom") 0 =
      ((0 + 1 == (renderSequence [wAIMsg]).length) &&
       (renderSequence [wAIMsg]).getLast?.any isAIMessage) :=
  errorBubble_spec [wAIMsg] (StreamError.fromString "boom") 0 (by decide)

/-- C10: the derived tool-call map has an entry at index `i` iff the
message there classifies as AI and its `tool_calls` array is present and
non-empty; and the render pass associates `[]` with any message not
classifying as AI (states are looked up only for AI messages). -/
theorem toolCallMap_iff (msgs : List JValue) (i : Nat) :
    ((lookupToolCalls (toolCallsByMessage msgs) i).isSome =
      msgs[i]?.any (fun m => isAIMessage m && !(getToolCalls m).isEmpty)) ∧
    (∀ m, msgs[i]? = some m → isAIMessage m = false →
      associatedToolCalls msgs i m = []) := by
  constructor
  · rw [lookup_toolCallsByMessage]
    cases hm : msgs[i]? with
    | none => rfl
    | some m =>
      rw [Option.some_bind, Option.any_some]
      unfold toolCallEntry
      by_cases hai : isAIMessage m = true
      · cases hemp : (getToolCalls m).isEmpty <;> simp [hai, hemp]
      · have hf : isAIMessage m = false := by simpa using hai
        simp [hf]
  · intro m _ hai
    simp [associatedToolCalls, hai]

/-- C10 witness: a human message owns no `ToolCallState` list. -/
theorem toolCallMap_iff_w : associatedToolCalls [wHumanMsg] 0 wHumanMsg = [] :=
  (toolCallMap_iff [wHumanMsg] 0).2 wHumanMsg rfl (by decide)
